import Mathlib

/-!
Verification of the NGIMU Teensy IO Expansion example firmware.

This file gives a shallow embedding of the event scheduler
(EventScheduler.cpp), the edge-trigger dispatcher (EventTrigger.cpp) and
the message-receiving helpers (Receive.cpp), and proves the behavioural
properties claimed of them.

Modelling conventions:
 - callbacks are represented by numeric identifiers; an invocation is an
   entry appended to an invocation log;
 - the 32-bit unsigned arithmetic of the Teensy target (unsigned long and
   size_t are both 32 bits wide) is modelled on Nat with explicit
   reduction modulo 2 ^ 32;
 - the single IEEE-754 binary32 operation performed by the sources
   (1000000.0f / repeatFrequency) is modelled exactly over the rationals
   by correct rounding to 24 significant bits, round to nearest, ties to
   even; frequencies are taken as the exact rational value of the float
   argument;
 - fallible operations return Except or Option values instead of writing
   through pointers and returning an error code.
-/

/-- Wrap-safe unsigned 32-bit subtraction, the idiom
(currentMicros - previousMicros) of EventScheduler.cpp evaluated on
unsigned long operands below 2 ^ 32. -/
def sub32 (a b : Nat) : Nat :=
  (a + 2 ^ 32 - b) % 2 ^ 32

/-- Write value a into slot i of a statically allocated slot array. -/
def updateSlot {α : Type} (slots : Nat → α) (i : Nat) (a : α) : Nat → α :=
  fun j => if j = i then a else slots j

/-- Sequential loop over slot indices, as in the for loops of
EventSchedulerDoTasks and EventTriggerDoTasks: each visited slot is
replaced by the first component of its step and the optional callback
invocations are logged in visiting order. -/
def slotLoop {α β : Type} (step : α → α × Option β) (slots : Nat → α) :
    List Nat → (Nat → α) × List β
  | [] => (slots, [])
  | i :: rest =>
    ((slotLoop step (updateSlot slots i (step (slots i)).1) rest).1,
      match (step (slots i)).2 with
      | some b => b :: (slotLoop step (updateSlot slots i (step (slots i)).1) rest).2
      | none => (slotLoop step (updateSlot slots i (step (slots i)).1) rest).2)

/-! ## IEEE-754 binary32 model for the frequency-to-period conversion -/

/-- Round a rational to the nearest integer, ties to even (the IEEE-754
default rounding of the FPU performing 1000000.0f / repeatFrequency). -/
def rne (x : ℚ) : ℤ :=
  if x - ⌊x⌋ < 1 / 2 then ⌊x⌋
  else if 1 / 2 < x - ⌊x⌋ then ⌊x⌋ + 1
  else if 2 ∣ ⌊x⌋ then ⌊x⌋ else ⌊x⌋ + 1

/-- Correctly rounded binary32 value of a positive rational (normal
range): the significand is rounded to 24 bits, nearest, ties to even. -/
def roundF32pos (q : ℚ) : ℚ :=
  ((rne (q * 2 ^ (-(Int.log 2 q - 23))) : ℤ) : ℚ) * 2 ^ (Int.log 2 q - 23)

/-- Correctly rounded binary32 value of a rational (normal range). -/
def roundF32 (q : ℚ) : ℚ :=
  if q = 0 then 0 else if 0 < q then roundF32pos q else -roundF32pos (-q)

/-- The binary32 division 1000000.0f / repeatFrequency: IEEE-754 division
is the correctly rounded exact quotient. -/
def fdiv32 (a b : ℚ) : ℚ :=
  roundF32 (a / b)

/-- Truncation toward zero, the behaviour of a C cast from float to an
integer type. -/
def truncRat (q : ℚ) : ℤ :=
  if 0 ≤ q then ⌊q⌋ else ⌈q⌉

/-- The C cast (unsigned long) of a float value, on the 32-bit target:
truncation toward zero, reduced modulo 2 ^ 32.  (For operands outside the
defined-behaviour range of the cast the C program is undefined; all uses
below are at nonnegative operands.) -/
def castULong (q : ℚ) : Nat :=
  (truncRat q).toNat % 2 ^ 32

/-! ## EventScheduler.cpp -/

/-- Structure of scheduled event variables (EventScheduler.cpp), with the
callback function pointer replaced by a numeric identifier. -/
structure ScheduledEvent where
  function : Nat
  repeatInterval : Nat
  previousMicros : Nat
deriving DecidableEq

/-- The module state of EventScheduler.cpp: the static slot array
scheduledEvents and the counter numberOfSchduledEvents. -/
structure SchedulerState where
  slots : Nat → ScheduledEvent
  count : Nat

/-- Start-up state: static storage is zero-initialised and no event has
been added. -/
def initialSchedulerState : SchedulerState :=
  ⟨fun _ => ⟨0, 0, 0⟩, 0⟩

/-- Body of the for loop of EventSchedulerDoTasks for one slot: if
(currentMicros - previousMicros) >= repeatInterval then the callback is
invoked and previousMicros is set to currentMicros. -/
def ScheduledEventStep (currentMicros : Nat) (e : ScheduledEvent) :
    ScheduledEvent × Option Nat :=
  if e.repeatInterval ≤ sub32 currentMicros e.previousMicros then
    ({ e with previousMicros := currentMicros }, some e.function)
  else
    (e, none)

/-- EventSchedulerDoTasks: micros() is read once into currentMicros (the
single argument below), then every slot below the count is examined in
registration order. -/
def EventSchedulerDoTasks (currentMicros : Nat) (s : SchedulerState) :
    SchedulerState × List Nat :=
  (⟨(slotLoop (ScheduledEventStep currentMicros) s.slots (List.range s.count)).1, s.count⟩,
    (slotLoop (ScheduledEventStep currentMicros) s.slots (List.range s.count)).2)

/-- EventSchedulerAddEvent: returns unchanged at capacity, otherwise
stores the callback and the interval (unsigned long) (1000000.0f /
repeatFrequency) in the next slot; previousMicros is not written by the
source and keeps the value already in the slot. -/
def EventSchedulerAddEvent (function : Nat) (repeatFrequency : ℚ)
    (s : SchedulerState) : SchedulerState :=
  if 32 ≤ s.count then
    s
  else
    ⟨updateSlot s.slots s.count
      { function := function
        repeatInterval := castULong (fdiv32 1000000 repeatFrequency)
        previousMicros := (s.slots s.count).previousMicros },
      s.count + 1⟩

/-! ## EventTrigger.cpp -/

/-- Structure of trigger event variables (EventTrigger.cpp), with the
callback function pointer replaced by a numeric identifier. -/
structure TriggerEvent where
  function : Nat
  pinNumber : Nat
  prevousPinState : Bool
deriving DecidableEq

/-- The module state of EventTrigger.cpp: the static slot array
triggerEvents and the counter numberOfTriggerEvents. -/
structure TriggerState where
  slots : Nat → TriggerEvent
  count : Nat

/-- Start-up state: static storage is zero-initialised (in particular
every prevousPinState starts false) and no event has been added. -/
def initialTriggerState : TriggerState :=
  ⟨fun _ => ⟨0, 0, false⟩, 0⟩

/-- A pin configuration performed by EventTriggerAddEvent. -/
inductive PinModeAction where
  | inputPullup (pinNumber : Nat)
deriving DecidableEq

/-- Body of the for loop of EventTriggerDoTasks for one slot: the pin
level is read once (digitalRead == 1), the callback is invoked with the
new level on either transition, and prevousPinState is updated
unconditionally. -/
def TriggerEventStep (digitalRead : Nat → Bool) (e : TriggerEvent) :
    TriggerEvent × Option (Nat × Bool) :=
  ({ e with prevousPinState := digitalRead e.pinNumber },
    if digitalRead e.pinNumber = false then
      if e.prevousPinState = true then some (e.function, digitalRead e.pinNumber) else none
    else
      if e.prevousPinState = false then some (e.function, digitalRead e.pinNumber) else none)

/-- EventTriggerDoTasks: every slot below the count is examined in
registration order; digitalRead is the level observed at each pin during
this poll. -/
def EventTriggerDoTasks (digitalRead : Nat → Bool) (s : TriggerState) :
    TriggerState × List (Nat × Bool) :=
  (⟨(slotLoop (TriggerEventStep digitalRead) s.slots (List.range s.count)).1, s.count⟩,
    (slotLoop (TriggerEventStep digitalRead) s.slots (List.range s.count)).2)

/-- EventTriggerAddEvent: returns unchanged (and configures no pin) at
capacity, otherwise configures the pin as an input with pull-up and
stores the callback and pin number in the next slot; prevousPinState is
not written by the source and keeps the value already in the slot. -/
def EventTriggerAddEvent (function : Nat) (pinNumber : Nat)
    (s : TriggerState) : TriggerState × List PinModeAction :=
  if 32 ≤ s.count then
    (s, [])
  else
    (⟨updateSlot s.slots s.count
        { function := function
          pinNumber := pinNumber
          prevousPinState := (s.slots s.count).prevousPinState },
        s.count + 1⟩,
      [PinModeAction.inputPullup pinNumber])

/-! ## Falling-edge-only dispatcher variant -/

/-- Modelled from the spec: the falling-edge-only Edge Dispatcher variant
with a 10 ms debounce window is part of this repository but its source is
not under src (the EventTrigger.cpp under src is the rising+falling
variant only).  Per the spec, a falling-only binding tracks the previous
level and a timestamp updated on every low reading. -/
structure FallingTriggerEvent where
  function : Nat
  pinNumber : Nat
  prevousPinState : Bool
  lastFireMicros : Nat
deriving DecidableEq

/-- Modelled from the spec: the fixed debounce window of the falling-only
variant, 10 ms expressed on the microsecond clock. -/
def debouncePeriod : Nat := 10000

/-- Modelled from the spec: one poll of one falling-only binding.  The
callback fires when the level transitions high to low and at least the
debounce window has elapsed since the pin last read low (wrap-safe
comparison); the timestamp updates on every low reading and the previous
level is updated unconditionally. -/
def FallingTriggerPoll (currentMicros : Nat) (level : Bool)
    (e : FallingTriggerEvent) : FallingTriggerEvent × Option Nat :=
  ({ e with
      prevousPinState := level
      lastFireMicros := if level = false then currentMicros else e.lastFireMicros },
    if level = false ∧ e.prevousPinState = true ∧
        debouncePeriod ≤ sub32 currentMicros e.lastFireMicros then
      some e.function
    else
      none)

/-! ## Receive.cpp -/

/-- Error codes of the Osc99 library used by Receive.cpp.  The success
code OscErrorNone is modelled as the absence of an error (Option.none or
Except.ok), so this type has only failing codes. -/
inductive OscError where
  | noArgumentsAvailable
  | unexpectedArgumentType
  | destinationTooSmall
deriving DecidableEq

/-- An OSC message argument.  A float32 argument carries the exact
rational value of the float; strings and blobs carry their bytes; other
stands for every remaining OSC type tag, all of which fall to the default
branch of the switch statements of Receive.cpp. -/
inductive OscArgument where
  | int32 (value : ℤ)
  | float32 (value : ℚ)
  | oscTrue
  | oscFalse
  | string (value : List Nat)
  | blob (value : List Nat)
  | other
deriving DecidableEq

/-- GetArgumentAsInt32 (Receive.cpp): the next argument is interpreted as
an int32; a float32 is cast (truncated toward zero), true gives 1, false
gives 0, any other type is an unexpected-argument-type error. -/
def GetArgumentAsInt32 : List OscArgument → Except OscError ℤ
  | [] => .error .noArgumentsAvailable
  | a :: _ =>
    match a with
    | .int32 v => .ok v
    | .float32 v => .ok (truncRat v)
    | .oscTrue => .ok 1
    | .oscFalse => .ok 0
    | _ => .error .unexpectedArgumentType

/-- GetArgumentAsFloat32 (Receive.cpp): the next argument is interpreted
as a float32; an int32 is cast to float (rounded to binary32), true gives
1.0f, false gives 0.0f, any other type is an unexpected-argument-type
error. -/
def GetArgumentAsFloat32 : List OscArgument → Except OscError ℚ
  | [] => .error .noArgumentsAvailable
  | a :: _ =>
    match a with
    | .int32 v => .ok (roundF32 v)
    | .float32 v => .ok v
    | .oscTrue => .ok 1
    | .oscFalse => .ok 0
    | _ => .error .unexpectedArgumentType

/-- GetArgumentAsBool (Receive.cpp): the next argument is interpreted as
a bool; nonzero numbers give true. -/
def GetArgumentAsBool : List OscArgument → Except OscError Bool
  | [] => .error .noArgumentsAvailable
  | a :: _ =>
    match a with
    | .int32 v => .ok (decide (v ≠ 0))
    | .float32 v => .ok (decide (v ≠ 0))
    | .oscTrue => .ok true
    | .oscFalse => .ok false
    | _ => .error .unexpectedArgumentType

/-- GetArgumentAsString (Receive.cpp): the next argument is interpreted
as a string of destinationSize capacity; the successful result is the
NUL-terminated byte content of the destination buffer.  A string is
copied by the codec when it fits (OscMessageGetString, an external
collaborator, modelled from the spec).  A blob is copied by the codec
when it fits (OscMessageGetBlob, likewise); then the source reads
destination[blobSize - 1] on a 32-bit size_t before any bounds check; a
read outside the bytes written by the codec is modelled as Option.none. -/
def GetArgumentAsString (args : List OscArgument) (destinationSize : Nat) :
    Option (Except OscError (List Nat)) :=
  match args with
  | [] => some (.error .noArgumentsAvailable)
  | a :: _ =>
    match a with
    | .string s =>
      if s.length + 1 ≤ destinationSize then some (.ok (s ++ [0]))
      else some (.error .destinationTooSmall)
    | .blob b =>
      if destinationSize < b.length then some (.error .destinationTooSmall)
      else
        if (b.length + 2 ^ 32 - 1) % 2 ^ 32 < b.length then
          if b.getD ((b.length + 2 ^ 32 - 1) % 2 ^ 32) 0 ≠ 0 then
            if destinationSize ≤ b.length then some (.error .destinationTooSmall)
            else some (.ok (b ++ [0]))
          else some (.ok b)
        else none
    | _ => some (.error .unexpectedArgumentType)

/-- Whether a character is one of the OSC address pattern metacharacters
(codes 63 '?', 42 '*', 91 and 93 for the square brackets, 123 and 125 for
the curly braces). -/
def isPatternChar (c : Char) : Bool :=
  (c.toNat == 63) || (c.toNat == 42) || (c.toNat == 91) ||
    (c.toNat == 93) || (c.toNat == 123) || (c.toNat == 125)

/-- Modelled from the spec: OscAddressIsLiteral of the external Osc99
codec holds when the address contains none of the pattern
metacharacters. -/
def OscAddressIsLiteral (s : String) : Bool :=
  !(s.data.any isPatternChar)

/-- An OSC message as seen by ProcesAddress: the address pattern and the
argument list. -/
structure OscMessage where
  oscAddressPattern : String
  arguments : List OscArgument
deriving DecidableEq

/-- An outbound send performed while processing a message: the
special-characters error, the address-not-recognised error, or the error
message the caller sends for a library error code. -/
inductive SendAction where
  | patternCharsError
  | addressNotRecognisedError (oscAddressPattern : String)
  | libraryError (e : OscError)
deriving DecidableEq

/-- A hardware side effect performed by a handler of ProcesAddress. -/
inductive PinAction where
  | pinModeOutput (pinNumber : Nat)
  | digitalWrite (pinNumber : Nat) (state : Bool)
  | noTone (pinNumber : Nat)
  | tone (pinNumber : Nat) (frequency : ℤ)
deriving DecidableEq

/-- Everything observable of one ProcesAddress call: the error messages
sent, the pin side effects performed, and the returned error code
(Option.none standing for OscErrorNone). -/
structure ProcessOutcome where
  sends : List SendAction
  pinActions : List PinAction
  returned : Option OscError
deriving DecidableEq

/-- ProcesAddress (Receive.cpp): non-literal address patterns are
rejected with one sent error message and a successful return before any
handler address comparison; then the address is compared against
each handler address in order; an unrecognised address sends one error
message and returns success. -/
def ProcesAddress (oscMessage : OscMessage) : ProcessOutcome :=
  if OscAddressIsLiteral oscMessage.oscAddressPattern = false then
    ⟨[.patternCharsError], [], Option.none⟩
  else if oscMessage.oscAddressPattern = "/teensy/led" then
    match GetArgumentAsBool oscMessage.arguments with
    | .error e => ⟨[], [], some e⟩
    | .ok ledState => ⟨[], [.pinModeOutput 13, .digitalWrite 13 ledState], Option.none⟩
  else if oscMessage.oscAddressPattern = "/teensy/tone" then
    match GetArgumentAsInt32 oscMessage.arguments with
    | .error e => ⟨[], [], some e⟩
    | .ok frequency =>
      ⟨[], [if frequency = 0 then .noTone 9 else .tone 9 frequency], Option.none⟩
  else
    ⟨[.addressNotRecognisedError oscMessage.oscAddressPattern], [], Option.none⟩

/-- ProcessMessage (Receive.cpp): calls ProcesAddress and sends one
further error message exactly when the returned code is an error.  The
result is the complete list of error messages sent for the message. -/
def ProcessMessage (oscMessage : OscMessage) : List SendAction :=
  (ProcesAddress oscMessage).sends ++
    (match (ProcesAddress oscMessage).returned with
      | some e => [SendAction.libraryError e]
      | Option.none => [])

/-! ## Loop characterisation -/

theorem filterMap_ext {β : Type} (f g : Nat → Option β) :
    ∀ l : List Nat, (∀ x ∈ l, f x = g x) → l.filterMap f = l.filterMap g := by
  intro l
  induction l with
  | nil => intro _; rfl
  | cons a l ih =>
    intro h
    rw [List.filterMap_cons, List.filterMap_cons, h a (by simp),
      ih fun x hx => h x (by simp [hx])]

theorem slotLoop_spec {α β : Type} (step : α → α × Option β) :
    ∀ (l : List Nat) (slots : Nat → α), l.Nodup →
      (slotLoop step slots l).2 = l.filterMap (fun i => (step (slots i)).2)
      ∧ ∀ j, (slotLoop step slots l).1 j =
          if j ∈ l then (step (slots j)).1 else slots j := by
  intro l
  induction l with
  | nil =>
    intro slots _
    exact ⟨rfl, fun j => by simp [slotLoop]⟩
  | cons i rest ih =>
    intro slots hnd
    rw [List.nodup_cons] at hnd
    have hrec := ih (updateSlot slots i (step (slots i)).1) hnd.2
    have hagree : ∀ x ∈ rest, updateSlot slots i (step (slots i)).1 x = slots x := by
      intro x hx
      have hxi : x ≠ i := fun hcontra => hnd.1 (hcontra ▸ hx)
      simp [updateSlot, hxi]
    have htail : (slotLoop step (updateSlot slots i (step (slots i)).1) rest).2
        = rest.filterMap fun x => (step (slots x)).2 := by
      rw [hrec.1]
      exact filterMap_ext _ _ rest fun x hx => by rw [hagree x hx]
    constructor
    · rw [List.filterMap_cons]
      cases hstep : (step (slots i)).2 with
      | none => simp [slotLoop, hstep, htail]
      | some b => simp [slotLoop, hstep, htail]
    · intro j
      have hj := hrec.2 j
      show (slotLoop step (updateSlot slots i (step (slots i)).1) rest).1 j = _
      by_cases hji : j = i
      · subst hji
        rw [hj, if_neg hnd.1, if_pos (List.mem_cons_self j rest)]
        simp [updateSlot]
      · rw [hj]
        by_cases hjr : j ∈ rest
        · rw [if_pos hjr, if_pos (List.mem_cons_of_mem i hjr), hagree j hjr]
        · rw [if_neg hjr, if_neg (by simp [hji, hjr])]
          simp [updateSlot, hji]

theorem ScheduledEventStep_spec (currentMicros : Nat) (e : ScheduledEvent) :
    ScheduledEventStep currentMicros e =
      (if e.repeatInterval ≤ sub32 currentMicros e.previousMicros then
          { e with previousMicros := currentMicros }
        else e,
       if e.repeatInterval ≤ sub32 currentMicros e.previousMicros then
          some e.function
        else Option.none) := by
  unfold ScheduledEventStep
  split <;> simp_all

theorem TriggerEventStep_fire (digitalRead : Nat → Bool) (e : TriggerEvent) :
    (TriggerEventStep digitalRead e).2 =
      if digitalRead e.pinNumber ≠ e.prevousPinState then
        some (e.function, digitalRead e.pinNumber)
      else Option.none := by
  unfold TriggerEventStep
  cases h1 : digitalRead e.pinNumber <;> cases h2 : e.prevousPinState <;> simp [h1, h2]

/-! ## Claims about the scheduler and trigger loops -/

/-- Claim C1: one EventSchedulerDoTasks call reads the clock once (the
single currentMicros argument); every registered task whose wrap-safe
difference (now - previousMicros) is at least its repeatInterval is
invoked exactly once with previousMicros set to now, in registration
order; a task below its interval is left unchanged, and slots past the
count as well as the count itself are untouched. -/
theorem claim_C1 (currentMicros : Nat) (s : SchedulerState) :
    (EventSchedulerDoTasks currentMicros s).2
      = (List.range s.count).filterMap (fun i =>
          if (s.slots i).repeatInterval ≤ sub32 currentMicros (s.slots i).previousMicros
          then some (s.slots i).function else Option.none)
    ∧ (∀ j, (EventSchedulerDoTasks currentMicros s).1.slots j =
        if j < s.count then
          (if (s.slots j).repeatInterval ≤ sub32 currentMicros (s.slots j).previousMicros
            then { s.slots j with previousMicros := currentMicros }
            else s.slots j)
        else s.slots j)
    ∧ (EventSchedulerDoTasks currentMicros s).1.count = s.count := by
  have h := slotLoop_spec (ScheduledEventStep currentMicros) (List.range s.count) s.slots
    (List.nodup_range s.count)
  refine ⟨?_, ?_, rfl⟩
  · show (slotLoop _ _ _).2 = _
    rw [h.1]
    exact filterMap_ext _ _ _ fun i _ => by rw [ScheduledEventStep_spec]
  · intro j
    show (slotLoop _ _ _).1 j = _
    rw [h.2 j]
    by_cases hlt : j < s.count
    · rw [if_pos (List.mem_range.mpr hlt), if_pos hlt, ScheduledEventStep_spec]
    · rw [if_neg (fun hc => hlt (List.mem_range.mp hc)), if_neg hlt]

/-- Claim C4: one EventTriggerDoTasks call fires, for each bound pin
whose freshly read level differs from the stored previous level, exactly
one callback carrying the new level (either transition direction, no
debounce), fires nothing for an unchanged pin, and updates the stored
previous level to the observed level unconditionally; slots past the
count and the count itself are untouched. -/
theorem claim_C4 (digitalRead : Nat → Bool) (s : TriggerState) :
    (EventTriggerDoTasks digitalRead s).2
      = (List.range s.count).filterMap (fun i =>
          if digitalRead (s.slots i).pinNumber ≠ (s.slots i).prevousPinState
          then some ((s.slots i).function, digitalRead (s.slots i).pinNumber)
          else Option.none)
    ∧ (∀ j, (EventTriggerDoTasks digitalRead s).1.slots j =
        if j < s.count then
          { s.slots j with prevousPinState := digitalRead (s.slots j).pinNumber }
        else s.slots j)
    ∧ (EventTriggerDoTasks digitalRead s).1.count = s.count := by
  have h := slotLoop_spec (TriggerEventStep digitalRead) (List.range s.count) s.slots
    (List.nodup_range s.count)
  refine ⟨?_, ?_, rfl⟩
  · show (slotLoop _ _ _).2 = _
    rw [h.1]
    exact filterMap_ext _ _ _ fun i _ => TriggerEventStep_fire digitalRead (s.slots i)
  · intro j
    show (slotLoop _ _ _).1 j = _
    rw [h.2 j]
    by_cases hlt : j < s.count
    · rw [if_pos (List.mem_range.mpr hlt), if_pos hlt]
      rfl
    · rw [if_neg (fun hc => hlt (List.mem_range.mp hc)), if_neg hlt]

/-- Claim C8: with the registry already holding 32 entries, both
registration functions return without signalling anything, leave the
registry (slot array and count) unchanged, and EventTriggerAddEvent
performs no pin configuration. -/
theorem claim_C8 (function pinNumber : Nat) (repeatFrequency : ℚ)
    (s : SchedulerState) (t : TriggerState)
    (hs : s.count = 32) (ht : t.count = 32) :
    EventSchedulerAddEvent function repeatFrequency s = s
    ∧ EventTriggerAddEvent function pinNumber t = (t, []) := by
  constructor
  · unfold EventSchedulerAddEvent
    rw [if_pos (by omega)]
  · unfold EventTriggerAddEvent
    rw [if_pos (by omega)]

/-- Concrete instance of claim C8 at a full registry. -/
theorem claim_C8_witness :
    EventSchedulerAddEvent 1 100 ⟨fun _ => ⟨0, 0, 0⟩, 32⟩ = ⟨fun _ => ⟨0, 0, 0⟩, 32⟩
    ∧ EventTriggerAddEvent 1 5 ⟨fun _ => ⟨0, 0, false⟩, 32⟩
        = (⟨fun _ => ⟨0, 0, false⟩, 32⟩, []) :=
  claim_C8 1 5 100 ⟨fun _ => ⟨0, 0, 0⟩, 32⟩ ⟨fun _ => ⟨0, 0, false⟩, 32⟩ rfl rfl

/-- Claim C10: EventTriggerAddEvent does not initialise the stored
previous pin state, which therefore starts at the zero value false, so
the first poll after registering on the zero-initialised module state
fires once with argument true when the pull-up-biased pin reads high. -/
theorem claim_C10 (function pinNumber : Nat) (digitalRead : Nat → Bool)
    (h : digitalRead pinNumber = true) :
    (((EventTriggerAddEvent function pinNumber initialTriggerState).1).slots 0).prevousPinState
        = false
    ∧ (EventTriggerDoTasks digitalRead
        (EventTriggerAddEvent function pinNumber initialTriggerState).1).2
      = [(function, true)] := by
  constructor
  · rfl
  · have hslot : ((EventTriggerAddEvent function pinNumber initialTriggerState).1).slots 0
        = ⟨function, pinNumber, false⟩ := rfl
    have hrange :
        List.range ((EventTriggerAddEvent function pinNumber initialTriggerState).1).count
          = [0] := rfl
    show (slotLoop (TriggerEventStep digitalRead)
        ((EventTriggerAddEvent function pinNumber initialTriggerState).1).slots
        (List.range ((EventTriggerAddEvent function pinNumber initialTriggerState).1).count)).2
      = [(function, true)]
    rw [hrange]
    simp [slotLoop, TriggerEventStep, hslot, h]

/-- Concrete instance of claim C10: pin 3 reads high on the first poll
after registration and callback 7 fires with argument true. -/
theorem claim_C10_witness :
    (((EventTriggerAddEvent 7 3 initialTriggerState).1).slots 0).prevousPinState = false
    ∧ (EventTriggerDoTasks (fun _ => true)
        (EventTriggerAddEvent 7 3 initialTriggerState).1).2 = [(7, true)] :=
  claim_C10 7 3 (fun _ => true) rfl

/-- Claim C3: for a falling-edge-only binding (spec-modelled variant),
one poll fires the callback exactly when the level transitions high to
low and at least the 10 ms debounce window has elapsed since the pin
last read low; the timestamp is updated on every low reading, the
previous level unconditionally, and one poll produces at most one
firing. -/
theorem claim_C3 (currentMicros : Nat) (level : Bool) (e : FallingTriggerEvent) :
    ((FallingTriggerPoll currentMicros level e).2 = some e.function
      ↔ (e.prevousPinState = true ∧ level = false
          ∧ debouncePeriod ≤ sub32 currentMicros e.lastFireMicros))
    ∧ (FallingTriggerPoll currentMicros level e).1.prevousPinState = level
    ∧ (FallingTriggerPoll currentMicros level e).1.lastFireMicros
        = (if level = false then currentMicros else e.lastFireMicros)
    ∧ (FallingTriggerPoll currentMicros level e).2.toList.length ≤ 1 := by
  refine ⟨?_, rfl, rfl, ?_⟩
  · unfold FallingTriggerPoll
    dsimp only
    by_cases hc : level = false ∧ e.prevousPinState = true ∧
        debouncePeriod ≤ sub32 currentMicros e.lastFireMicros
    · rw [if_pos hc]
      constructor
      · intro _
        exact ⟨hc.2.1, hc.1, hc.2.2⟩
      · intro _
        rfl
    · rw [if_neg hc]
      constructor
      · intro hcontra
        exact absurd hcontra (by simp)
      · intro hr
        exact absurd ⟨hr.2.1, hr.1, hr.2.2⟩ hc
  · unfold FallingTriggerPoll
    dsimp only
    split <;> simp

/-! ## Evaluation lemmas for the binary32 model -/

theorem rne_eval_down (x : ℚ) (n : ℤ) (hfl : ⌊x⌋ = n) (hlt : x - n < 1 / 2) :
    rne x = n := by
  unfold rne
  rw [hfl, if_pos hlt]

theorem rne_eval_up (x : ℚ) (n : ℤ) (hfl : ⌊x⌋ = n) (hgt : 1 / 2 < x - n) :
    rne x = n + 1 := by
  unfold rne
  rw [hfl, if_neg (by linarith), if_pos hgt]

theorem rne_ge_floor (x : ℚ) : ⌊x⌋ ≤ rne x := by
  unfold rne
  split_ifs <;> omega

theorem rne_nonneg (x : ℚ) (hx : 0 ≤ x) : 0 ≤ rne x :=
  le_trans (Int.le_floor.mpr (by exact_mod_cast hx)) (rne_ge_floor x)

theorem roundF32pos_eval (q : ℚ) (E m : ℤ) (hlog : Int.log 2 q = E)
    (hrne : rne (q * 2 ^ (23 - E)) = m) :
    roundF32pos q = (m : ℚ) * 2 ^ (E - 23) := by
  unfold roundF32pos
  rw [hlog, neg_sub, hrne]

theorem roundF32pos_nonneg (q : ℚ) (hq : 0 < q) : 0 ≤ roundF32pos q := by
  unfold roundF32pos
  apply mul_nonneg
  · exact_mod_cast rne_nonneg _ (by positivity)
  · positivity

theorem roundF32_nonneg (q : ℚ) (hq : 0 ≤ q) : 0 ≤ roundF32 q := by
  unfold roundF32
  split_ifs with h0 hpos
  · exact le_refl 0
  · exact roundF32pos_nonneg q hpos
  · exact absurd (lt_of_le_of_ne hq (Ne.symm h0)) hpos

theorem intLog_1e6_div_6 : Int.log 2 ((1000000 : ℚ) / 6) = 17 := by
  rw [Int.log_of_one_le_right _ (by norm_num)]
  have hf : ⌊(1000000 : ℚ) / 6⌋₊ = 166666 := by
    rw [Nat.floor_eq_iff (by positivity)]
    norm_num
  have hl : Nat.log 2 166666 = 17 :=
    Nat.log_eq_of_pow_le_of_lt_pow (by norm_num) (by norm_num)
  rw [hf, hl]
  norm_num

theorem fdiv32_1e6_6 : fdiv32 1000000 6 = 10666667 / 64 := by
  have hmul : ((1000000 : ℚ) / 6) * 2 ^ ((23 : ℤ) - 17) = 32000000 / 3 := by
    norm_num
  have hfl : ⌊(32000000 : ℚ) / 3⌋ = 10666666 := by
    rw [Int.floor_eq_iff]
    norm_num
  have hrne : rne (((1000000 : ℚ) / 6) * 2 ^ ((23 : ℤ) - 17)) = 10666667 := by
    rw [hmul]
    exact rne_eval_up _ 10666666 hfl (by norm_num)
  have hval := roundF32pos_eval ((1000000 : ℚ) / 6) 17 10666667 intLog_1e6_div_6 hrne
  unfold fdiv32 roundF32
  rw [if_neg (by norm_num), if_pos (by norm_num), hval]
  norm_num

theorem intLog_5 : Int.log 2 ((5 : ℚ)) = 2 := by
  rw [Int.log_of_one_le_right _ (by norm_num)]
  have hf : ⌊(5 : ℚ)⌋₊ = 5 := by
    rw [Nat.floor_eq_iff (by positivity)]
    norm_num
  have hl : Nat.log 2 5 = 2 :=
    Nat.log_eq_of_pow_le_of_lt_pow (by norm_num) (by norm_num)
  rw [hf, hl]
  norm_num

theorem roundF32_5 : roundF32 (5 : ℚ) = 5 := by
  have hmul : ((5 : ℚ)) * 2 ^ ((23 : ℤ) - 2) = 10485760 := by
    norm_num
  have hfl : ⌊(10485760 : ℚ)⌋ = 10485760 := by
    rw [Int.floor_eq_iff]
    norm_num
  have hrne : rne (((5 : ℚ)) * 2 ^ ((23 : ℤ) - 2)) = 10485760 := by
    rw [hmul]
    exact rne_eval_down _ 10485760 hfl (by norm_num)
  have hval := roundF32pos_eval (5 : ℚ) 2 10485760 intLog_5 hrne
  unfold roundF32
  rw [if_neg (by norm_num), if_pos (by norm_num), hval]
  norm_num

theorem truncRat_seven_halves : truncRat (7 / 2 : ℚ) = 3 := by
  unfold truncRat
  rw [if_pos (by norm_num)]
  rw [Int.floor_eq_iff]
  norm_num

theorem truncRat_neg_seven_halves : truncRat (-(7 / 2) : ℚ) = -3 := by
  unfold truncRat
  rw [if_neg (by norm_num)]
  rw [Int.ceil_eq_iff]
  norm_num

/-! ## Claims about the frequency-to-period conversion -/

/-- Claim C2 counterexample: registering at 6 Hz stores the period
166666, while round(1000000 / 6) = 166667, so the stored period is not
the rounded quotient. -/
theorem claim_C2_counterexample :
    ((EventSchedulerAddEvent 7 6 initialSchedulerState).slots 0).repeatInterval = 166666
    ∧ round ((1000000 : ℚ) / 6) = 166667
    ∧ ((EventSchedulerAddEvent 7 6 initialSchedulerState).slots 0).repeatInterval
        ≠ (round ((1000000 : ℚ) / 6)).toNat := by
  have hstored :
      ((EventSchedulerAddEvent 7 6 initialSchedulerState).slots 0).repeatInterval = 166666 := by
    show castULong (fdiv32 1000000 6) = 166666
    rw [fdiv32_1e6_6]
    unfold castULong truncRat
    rw [if_pos (by norm_num)]
    have hfl : ⌊(10666667 : ℚ) / 64⌋ = 166666 := by
      rw [Int.floor_eq_iff]
      norm_num
    rw [hfl]
    decide
  have hround : round ((1000000 : ℚ) / 6) = 166667 := by
    rw [round_eq, Int.floor_eq_iff]
    norm_num
  refine ⟨hstored, hround, ?_⟩
  rw [hstored, hround]
  decide

/-- Claim C2 (amended): for an accepted registration with a positive
frequency, the stored period in microseconds is the IEEE-754 binary32
quotient 1000000.0f / frequencyHz truncated toward zero (not rounded to
the nearest microsecond). -/
theorem claim_C2_amended (function : Nat) (repeatFrequency : ℚ) (s : SchedulerState)
    (hc : s.count < 32) (hf : 0 < repeatFrequency) :
    ((EventSchedulerAddEvent function repeatFrequency s).slots s.count).repeatInterval
      = (⌊fdiv32 1000000 repeatFrequency⌋).toNat % 2 ^ 32 := by
  have hq : (0 : ℚ) ≤ fdiv32 1000000 repeatFrequency := by
    unfold fdiv32
    exact roundF32_nonneg _ (by positivity)
  unfold EventSchedulerAddEvent
  rw [if_neg (by omega)]
  show (updateSlot s.slots s.count _ s.count).repeatInterval = _
  unfold updateSlot
  rw [if_pos rfl]
  unfold castULong truncRat
  rw [if_pos hq]

/-- Concrete instance of claim C2 (amended) at 4 Hz on the start-up
state. -/
theorem claim_C2_amended_witness :
    initialSchedulerState.count < 32 ∧ (0 : ℚ) < 4 ∧
    ((EventSchedulerAddEvent 3 4 initialSchedulerState).slots
        initialSchedulerState.count).repeatInterval
      = (⌊fdiv32 1000000 4⌋).toNat % 2 ^ 32 :=
  ⟨by decide, by norm_num,
    claim_C2_amended 3 4 initialSchedulerState (by decide) (by norm_num)⟩

/-- Claim C5: the flexible-type coercion table of the argument
extractors: an integer slot accepts an int32 unchanged, a float32
truncated toward zero, true as 1 and false as 0; a float slot accepts an
int32 rounded to binary32, a float32 unchanged, true as 1.0 and false as
0.0; in particular true where an int32 is required extracts 1 and the
integer 5 where a float32 is required extracts 5.0; a string, blob or
any other argument type yields the unexpected-argument-type error and no
value. -/
theorem claim_C5 (rest : List OscArgument) (i : ℤ) (q : ℚ) (s b : List Nat) :
    GetArgumentAsInt32 (.int32 i :: rest) = .ok i
    ∧ GetArgumentAsInt32 (.float32 q :: rest) = .ok (truncRat q)
    ∧ GetArgumentAsInt32 (.float32 (7 / 2) :: rest) = .ok 3
    ∧ GetArgumentAsInt32 (.float32 (-(7 / 2)) :: rest) = .ok (-3)
    ∧ GetArgumentAsInt32 (.oscTrue :: rest) = .ok 1
    ∧ GetArgumentAsInt32 (.oscFalse :: rest) = .ok 0
    ∧ GetArgumentAsFloat32 (.int32 i :: rest) = .ok (roundF32 i)
    ∧ GetArgumentAsFloat32 (.float32 q :: rest) = .ok q
    ∧ GetArgumentAsFloat32 (.int32 5 :: rest) = .ok 5
    ∧ GetArgumentAsFloat32 (.oscTrue :: rest) = .ok 1
    ∧ GetArgumentAsFloat32 (.oscFalse :: rest) = .ok 0
    ∧ GetArgumentAsInt32 (.string s :: rest) = .error .unexpectedArgumentType
    ∧ GetArgumentAsInt32 (.blob b :: rest) = .error .unexpectedArgumentType
    ∧ GetArgumentAsInt32 (.other :: rest) = .error .unexpectedArgumentType
    ∧ GetArgumentAsFloat32 (.string s :: rest) = .error .unexpectedArgumentType
    ∧ GetArgumentAsFloat32 (.blob b :: rest) = .error .unexpectedArgumentType
    ∧ GetArgumentAsFloat32 (.other :: rest) = .error .unexpectedArgumentType := by
  refine ⟨rfl, rfl, ?_, ?_, rfl, rfl, rfl, rfl, ?_, rfl, rfl, rfl, rfl, rfl, rfl, rfl, rfl⟩
  · show Except.ok (truncRat (7 / 2 : ℚ)) = Except.ok 3
    rw [truncRat_seven_halves]
  · show Except.ok (truncRat (-(7 / 2) : ℚ)) = Except.ok (-3)
    rw [truncRat_neg_seven_halves]
  · show Except.ok (roundF32 ((5 : ℤ) : ℚ)) = Except.ok 5
    have h5 : ((5 : ℤ) : ℚ) = 5 := by norm_num
    rw [h5, roundF32_5]

/-! ## Claims about message routing and string extraction -/

/-- Claim C6: a message whose address pattern contains a pattern
metacharacter is rejected by ProcesAddress before any handler address
comparison: exactly one error message about the disallowed pattern
characters is sent, no pin side effect is performed, the returned code
is success, and hence the caller (ProcessMessage) sends no second error
message. -/
theorem claim_C6 (oscMessage : OscMessage)
    (h : oscMessage.oscAddressPattern.data.any isPatternChar = true) :
    ProcesAddress oscMessage
        = ⟨[SendAction.patternCharsError], [], Option.none⟩
    ∧ ProcessMessage oscMessage = [SendAction.patternCharsError] := by
  have hlit : OscAddressIsLiteral oscMessage.oscAddressPattern = false := by
    unfold OscAddressIsLiteral
    rw [h]
    rfl
  have h1 : ProcesAddress oscMessage
      = ⟨[SendAction.patternCharsError], [], Option.none⟩ := by
    unfold ProcesAddress
    rw [hlit, if_pos rfl]
  refine ⟨h1, ?_⟩
  unfold ProcessMessage
  rw [h1]
  rfl

/-- Concrete instance of claim C6 at the wildcard address of the spec
routing scenario. -/
theorem claim_C6_witness :
    (("/device/led/*".data.any isPatternChar) = true)
    ∧ ProcesAddress ⟨"/device/led/*", []⟩
        = ⟨[SendAction.patternCharsError], [], Option.none⟩
    ∧ ProcessMessage ⟨"/device/led/*", []⟩ = [SendAction.patternCharsError] :=
  ⟨by decide, (claim_C6 ⟨"/device/led/*", []⟩ (by decide)).1,
    (claim_C6 ⟨"/device/led/*", []⟩ (by decide)).2⟩

/-- Claim C7: a nonempty blob supplied to a string slot, fitting the
destination: if its last byte is already a NUL terminator the content is
accepted as-is; otherwise, if the destination has room beyond the blob a
terminator is appended and extraction succeeds, and if the blob exactly
fills the destination extraction fails with the destination-too-small
error rather than truncating. -/
theorem claim_C7 (b : List Nat) (destinationSize : Nat) (rest : List OscArgument)
    (hne : b ≠ []) (hlen : b.length < 2 ^ 32) (hfit : b.length ≤ destinationSize) :
    GetArgumentAsString (.blob b :: rest) destinationSize =
      some (if b.getLast hne = 0 then .ok b
        else if b.length < destinationSize then .ok (b ++ [0])
        else .error .destinationTooSmall) := by
  have hpos : 1 ≤ b.length := List.length_pos.mpr hne
  have hidx : (b.length + 2 ^ 32 - 1) % 2 ^ 32 = b.length - 1 := by omega
  have hlt : b.length - 1 < b.length := by omega
  have hgetD : b.getD (b.length - 1) 0 = b.getLast hne := by
    rw [List.getD_eq_getElem b 0 hlt, List.getLast_eq_getElem]
  simp only [GetArgumentAsString]
  rw [if_neg (by omega), hidx, if_pos hlt, hgetD]
  by_cases h0 : b.getLast hne = 0
  · rw [if_neg (not_not.mpr h0), if_pos h0]
  · rw [if_pos h0, if_neg h0]
    by_cases hlt2 : b.length < destinationSize
    · rw [if_neg (by omega), if_pos hlt2]
    · rw [if_pos (by omega), if_neg hlt2]

/-- Concrete instance of claim C7: the blob of bytes 104 105 (the string
hi without terminator) in an eight-byte destination extracts with an
appended terminator. -/
theorem claim_C7_witness :
    GetArgumentAsString (.blob [104, 105] :: []) 8 = some (.ok [104, 105, 0]) := by
  rw [claim_C7 [104, 105] 8 [] (by decide) (by decide) (by decide)]
  rfl

/-- Claim C9: a blob of length zero supplied to a string slot makes
GetArgumentAsString index the destination at blobSize - 1, which
underflows on the 32-bit size_t to 2 ^ 32 - 1, before any bounds check;
the read is unguarded, so the total embedding of the read necessarily
takes its Option.none branch there. -/
theorem claim_C9 (destinationSize : Nat) (rest : List OscArgument) :
    GetArgumentAsString (.blob [] :: rest) destinationSize = Option.none
    ∧ ((0 : Nat) + 2 ^ 32 - 1) % 2 ^ 32 = 2 ^ 32 - 1 := by
  constructor
  · simp only [GetArgumentAsString]
    rw [if_neg (by simp), if_neg (by simp)]
  · decide
